import Mathlib

/-!
Verification of the shell's tokenizer, command-tree parser and cd builtin.

The definitions below are shallow embeddings of the Rust sources:
  * `transform_input` / `tokenize`  ←  `src/parser.rs::transform_input`
  * `scanRedirects` / `parse_redirect`  ←  `src/parser.rs::parse_redirect`
  * `rposition` / `parse_pipe`  ←  `src/parser.rs::parse_pipe`
  * `resolve_one` / `parse_command`  ←  `src/parser.rs::parse_command`
  * `parse_input`  ←  `src/parser.rs::parse_input`
  * `cdRun`  ←  `src/commands.rs::Command::run`, `Command::CD` branch

Environment access (`HOME`, `PATH`) and the filesystem are made explicit:
a `Ctx` record carries the optional `HOME` value, the optional already-split
`PATH` directory list (Rust splits `PATH` with `env::split_paths`), and the
set of paths for which `Path::is_file` returns true.  A Rust `panic!`
(`Option::unwrap` on `None`, a missing environment variable) is modelled as
`Except.error`; a normal `Option` return value stays an `Option` inside the
`Except`.
-/

namespace Shell

/-- Embedding of `src/parser.rs::RedirectType`. -/
inductive RedirectType where
  | none
  | truncate (path : String)
  | append (path : String)
  deriving DecidableEq, Repr

/-- Embedding of `RedirectType::is_some` from `src/parser.rs`. -/
def RedirectType.is_some : RedirectType → Bool
  | RedirectType.none => false
  | _ => true

/-- The command tree, `src/commands.rs::Command`.  A `PathBuf` is modelled as
its `String` rendering; the two redirect paths of the mature parser are
`RedirectType` values (as built by `src/parser.rs::parse_redirect`). -/
inductive Command where
  | exit
  | echo (args : List String)
  | type (targets : List Command)
  | pwd
  | cd (args : List String)
  | executable (path : String) (args : List String)
  | invalidCommand (name : String)
  | pipe (left : Command) (right : Command)
  | redirect (out : RedirectType) (err : RedirectType) (inner : Command)

/-- Environment and filesystem context for the parser.  `home` and
`pathDirs` are `none` when the corresponding environment variable is absent
(in which case the Rust code panics at its `unwrap`); `files` is the set of
paths for which `Path::is_file` holds. -/
structure Ctx where
  home : Option String
  pathDirs : Option (List String)
  files : List String
  deriving Repr

/-- Here `Except.error` models a Rust `panic!`. -/
def isPanic {α : Type} : Except String α → Bool
  | Except.error _ => true
  | Except.ok _ => false

/-- Rust `char::is_ascii_whitespace`: space, tab, newline, form feed,
carriage return. -/
def isAsciiWhitespace (c : Char) : Bool :=
  c == ' ' || c == '\t' || c == '\n' || c == Char.ofNat 12 || c == '\r'

/-- Rust `str::trim` on the character list: drop leading and trailing
whitespace (Rust uses Unicode `char::is_whitespace`; modelled with the
whitespace predicate of `Char.isWhitespace`). -/
def trimChars (cs : List Char) : List Char :=
  ((cs.dropWhile Char.isWhitespace).reverse.dropWhile Char.isWhitespace).reverse

/-- Embedding of `src/parser.rs::QuoteState`. -/
inductive QuoteState where
  | none
  | single
  | double
  deriving DecidableEq, Repr

/-- The loop state of `transform_input`: the tokens already emitted, the
token being built, the quote state and the escape flag. -/
structure TokState where
  output : List String
  current : String
  quote : QuoteState
  escaped : Bool
  deriving Repr

/-- The single-quote character (written via its code point to keep the
development free of escaped quote literals). -/
def singleQuote : Char := Char.ofNat 39

/-- One iteration of the `for char in input.trim().chars()` loop of
`src/parser.rs::transform_input`. -/
def tokStep (home : String) (s : TokState) (c : Char) : TokState :=
  match s.quote with
  | QuoteState.none =>
    if s.escaped then
      { s with current := s.current.push c, escaped := false }
    else if isAsciiWhitespace c then
      if s.current.length > 0 then
        { s with output := s.output ++ [s.current], current := "" }
      else s
    else if c == singleQuote then { s with quote := QuoteState.single }
    else if c == '"' then { s with quote := QuoteState.double }
    else if c == '~' then { s with current := s.current ++ home }
    else if c == '\\' then { s with escaped := true }
    else { s with current := s.current.push c }
  | QuoteState.single =>
    if c == singleQuote then { s with quote := QuoteState.none }
    else { s with current := s.current.push c }
  | QuoteState.double =>
    if s.escaped then
      if c == '"' || c == '\\' then
        { s with current := s.current.push c, escaped := false }
      else
        { s with current := (s.current.push '\\').push c, escaped := false }
    else if c == '"' then { s with quote := QuoteState.none }
    else if c == '\\' then { s with escaped := true }
    else { s with current := s.current.push c }

/-- The body of `src/parser.rs::transform_input` once `HOME` has been read:
fold the loop over the trimmed input and flush a pending non-empty token. -/
def tokenize (home : String) (input : String) : List String :=
  let s := (trimChars input.toList).foldl (tokStep home)
    ⟨[], "", QuoteState.none, false⟩
  if s.current.length > 0 then s.output ++ [s.current] else s.output

/-- Embedding of `src/parser.rs::transform_input`.  Its `env::var_os("HOME").unwrap()`
panics when `HOME` is absent. -/
def transform_input (home : Option String) (input : String) :
    Except String (List String) :=
  match home with
  | Option.none => Except.error "HOME not set"
  | Option.some h => Except.ok (tokenize h input)

/-- Rust `Path::join` for our string-rendered paths: `dir.join(name)` is
`dir ++ "/" ++ name` (the sources only join a directory with a bare command
name, never an absolute right operand). -/
def joinPath (dir name : String) : String :=
  dir ++ "/" ++ name

/-- The `for path in env::split_paths(&paths)` loop of
`src/parser.rs::parse_command`: walk the directories in order, return the
first joined path that `is_file`, mirroring `found_command` plus `break`. -/
def pathSearch (files : List String) (dirs : List String) (name : String) :
    Option String :=
  match dirs with
  | [] => Option.none
  | d :: rest =>
    if files.contains (joinPath d name) then Option.some (joinPath d name)
    else pathSearch files rest name

/-- Embedding of `src/parser.rs::parse_command` applied to the singleton sequence
`[cp]`, as done for each `type` argument: with an empty remainder the match
of `parse_command` reduces to exactly this function (inlined so the `type`
recursion is structural). -/
def resolve_one (ctx : Ctx) (cp : String) : Except String Command :=
  match cp with
  | "exit" => Except.ok Command.exit
  | "echo" => Except.ok (Command.echo [])
  | "type" => Except.ok (Command.type [])
  | "pwd" => Except.ok Command.pwd
  | "cd" => Except.ok (Command.cd [])
  | _ =>
    match ctx.pathDirs with
    | Option.none => Except.error "PATH not set"
    | Option.some dirs =>
      Except.ok (match pathSearch ctx.files dirs cp with
        | Option.some full => Command.executable full []
        | Option.none => Command.invalidCommand cp)

/-- The `.map(|cp| parse_command(&vec![cp.clone()]).unwrap()).collect()`
of the `type` branch: resolve each token left to right, propagating a
panic. -/
def mapResolve (ctx : Ctx) : List String → Except String (List Command)
  | [] => Except.ok []
  | cp :: rest =>
    match resolve_one ctx cp with
    | Except.error e => Except.error e
    | Except.ok c =>
      match mapResolve ctx rest with
      | Except.error e => Except.error e
      | Except.ok cs => Except.ok (c :: cs)

/-- Embedding of `src/parser.rs::parse_command`: `None` on an empty sequence, builtins by
name, otherwise a `PATH` search (`env::var_os("PATH").unwrap()` panics when
`PATH` is absent). -/
def parse_command (ctx : Ctx) (command_parts : List String) :
    Except String (Option Command) :=
  match command_parts with
  | [] => Except.ok Option.none
  | name :: rest =>
    match name with
    | "exit" => Except.ok (Option.some Command.exit)
    | "echo" => Except.ok (Option.some (Command.echo rest))
    | "type" =>
      match mapResolve ctx rest with
      | Except.error e => Except.error e
      | Except.ok targets => Except.ok (Option.some (Command.type targets))
    | "pwd" => Except.ok (Option.some Command.pwd)
    | "cd" => Except.ok (Option.some (Command.cd rest))
    | _ =>
      match ctx.pathDirs with
      | Option.none => Except.error "PATH not set"
      | Option.some dirs =>
        Except.ok (Option.some (match pathSearch ctx.files dirs name with
          | Option.some full => Command.executable full rest
          | Option.none => Command.invalidCommand name))

/-- Rust `Iterator::rposition`: the index of the last element satisfying
the predicate. -/
def rposition (p : String → Bool) : List String → Option Nat
  | [] => Option.none
  | x :: xs =>
    match rposition p xs with
    | Option.some i => Option.some (i + 1)
    | Option.none => if p x then Option.some 0 else Option.none

theorem rposition_lt_length {p : String → Bool} :
    ∀ {xs : List String} {i : Nat}, rposition p xs = Option.some i →
      i < xs.length := by
  intro xs
  induction xs with
  | nil => intro i h; simp [rposition] at h
  | cons x xs ih =>
    intro i h
    simp only [rposition] at h
    cases hx : rposition p xs with
    | some j =>
      rw [hx] at h
      cases h
      have := ih hx
      simp only [List.length_cons]
      omega
    | none =>
      rw [hx] at h
      by_cases hp : p x
      · simp [hp] at h
        subst h
        simp
      · simp [hp] at h

/-- Embedding of `src/parser.rs::parse_pipe`: split at the rightmost `|`, recurse on the
left slice, resolve the right slice as one stage; both sub-results pass
through `Option::unwrap` (a panic on `None`). -/
def parse_pipe (ctx : Ctx) (command_parts : List String) :
    Except String (Option Command) :=
  match h : rposition (fun cp => cp == "|") command_parts with
  | Option.some pipe_index =>
    match parse_pipe ctx (command_parts.take pipe_index) with
    | Except.error e => Except.error e
    | Except.ok Option.none => Except.error "unwrap on None"
    | Except.ok (Option.some left_command) =>
      match parse_command ctx (command_parts.drop (pipe_index + 1)) with
      | Except.error e => Except.error e
      | Except.ok Option.none => Except.error "unwrap on None"
      | Except.ok (Option.some right_command) =>
        Except.ok (Option.some (Command.pipe left_command right_command))
  | Option.none => parse_command ctx command_parts
termination_by command_parts.length
decreasing_by
  have := rposition_lt_length h
  simp only [List.length_take]
  omega

/-- The redirect operator tokens recognised by
`src/parser.rs::parse_redirect`. -/
def isRedirectOp (s : String) : Bool :=
  s == ">" || s == "1>" || s == ">>" || s == "1>>" || s == "2>" || s == "2>>"

/-- The scanning loop of `src/parser.rs::parse_redirect`, with the `keep`
mask and the final `retain` fused: an operator token assigns the spec from
the following token (`next.unwrap()` panics when there is none), is itself
dropped, and marks the following token as dropped (`keep_next = false`);
any other token is kept when `keep_next` was true.  Assignments thread left
to right, so a later operator of the same stream overwrites an earlier
one. -/
def scanRedirects (out_path err_path : RedirectType) (keep_next : Bool) :
    List String → Except String (RedirectType × RedirectType × List String)
  | [] => Except.ok (out_path, err_path, [])
  | x :: rest =>
    if x == ">" || x == "1>" then
      match rest.head? with
      | Option.none => Except.error "unwrap on None"
      | Option.some next => scanRedirects (RedirectType.truncate next) err_path false rest
    else if x == ">>" || x == "1>>" then
      match rest.head? with
      | Option.none => Except.error "unwrap on None"
      | Option.some next => scanRedirects (RedirectType.append next) err_path false rest
    else if x == "2>" then
      match rest.head? with
      | Option.none => Except.error "unwrap on None"
      | Option.some next => scanRedirects out_path (RedirectType.truncate next) false rest
    else if x == "2>>" then
      match rest.head? with
      | Option.none => Except.error "unwrap on None"
      | Option.some next => scanRedirects out_path (RedirectType.append next) false rest
    else
      match scanRedirects out_path err_path true rest with
      | Except.error e => Except.error e
      | Except.ok (o, e, kept) =>
        Except.ok (o, e, if keep_next then x :: kept else kept)

/-- Embedding of `src/parser.rs::parse_redirect`: scan and strip the redirect tokens,
hand the stripped sequence to `parse_pipe`, and wrap the result in a
`Redirect` node when either spec was set (`command.unwrap()` panics when
the stripped sequence produced no command). -/
def parse_redirect (ctx : Ctx) (command_parts : List String) :
    Except String (Option Command) :=
  match scanRedirects RedirectType.none RedirectType.none true command_parts with
  | Except.error e => Except.error e
  | Except.ok (out_path, err_path, kept) =>
    match parse_pipe ctx kept with
    | Except.error e => Except.error e
    | Except.ok command =>
      if out_path.is_some || err_path.is_some then
        match command with
        | Option.none => Except.error "unwrap on None"
        | Option.some c =>
          Except.ok (Option.some (Command.redirect out_path err_path c))
      else
        Except.ok command

/-- Embedding of `src/parser.rs::parse_input`: tokenize, then parse. -/
def parse_input (ctx : Ctx) (input : String) : Except String (Option Command) :=
  match transform_input ctx.home input with
  | Except.error e => Except.error e
  | Except.ok command_parts => parse_redirect ctx command_parts

/-- Filesystem model for the `cd` builtin: the paths for which
`Path::exists` holds and those for which `Path::is_dir` holds. -/
structure FSModel where
  exists_paths : List String
  dir_paths : List String
  deriving Repr

/-- The target-path computation of the `Command::CD` branch:
`args.get(0)` or the `HOME` fallback, whose `unwrap` panics when `HOME` is
absent. -/
def cdTarget (home : Option String) (args : List String) :
    Except String String :=
  match args.head? with
  | Option.some p => Except.ok p
  | Option.none =>
    match home with
    | Option.some h => Except.ok h
    | Option.none => Except.error "HOME not set"

/-- The `Command::CD` branch of `src/commands.rs::Command::run`.  Returns
the stderr lines written and the resulting working directory; `cwd` is the
process working directory before the call. -/
def cdRun (home : Option String) (args : List String) (fs : FSModel)
    (cwd : String) : Except String (List String × String) :=
  if args.length > 2 then
    Except.ok (["cd: too many arguments"], cwd)
  else
    match cdTarget home args with
    | Except.error e => Except.error e
    | Except.ok path_str =>
    if fs.exists_paths.contains path_str then
      if fs.dir_paths.contains path_str then
        Except.ok ([], path_str)
      else
        Except.ok (["cd: " ++ path_str ++ ": Not a directory"], cwd)
    else
      Except.ok (["cd: " ++ path_str ++ ": No such file or directory"], cwd)

/-- The five builtin command names recognised by
`src/parser.rs::parse_command`. -/
def builtinNames : List String :=
  ["exit", "echo", "type", "pwd", "cd"]

mutual

/-- Holds when the tree contains no `pipe` and no `redirect` node. -/
def isFlat : Command → Bool
  | Command.pipe _ _ => false
  | Command.redirect _ _ _ => false
  | Command.type cs => isFlatList cs
  | _ => true

/-- Conjunction of `isFlat` over every element. -/
def isFlatList : List Command → Bool
  | [] => true
  | c :: cs => isFlat c && isFlatList cs

end

mutual

/-- Holds when the tree contains no `redirect` node anywhere. -/
def noRedirect : Command → Bool
  | Command.redirect _ _ _ => false
  | Command.pipe l r => noRedirect l && noRedirect r
  | Command.type cs => noRedirectList cs
  | _ => true

/-- Conjunction of `noRedirect` over every element. -/
def noRedirectList : List Command → Bool
  | [] => true
  | c :: cs => noRedirect c && noRedirectList cs

end

/-- Holds when every `redirect` node of the tree, if any, is the root. -/
def redirectOnlyAtRoot : Command → Bool
  | Command.redirect _ _ inner => noRedirect inner
  | c => noRedirect c

/-- Modelled from the spec: the execution engine for `Command::Pipe`
(§4.5, §5) is not part of the sources under inspection (the snapshot of
`src/commands.rs` predates the `Pipe`/`IO` variants that `src/parser.rs`
references), so its observable scheduling is modelled as an event trace.
Stage 0 is the left leg, stage 1 the right leg. -/
inductive EngineEvent where
  | started (stage : Nat)
  | awaited (stage : Nat)
  deriving DecidableEq, Repr

/-- Modelled from the spec: for one `Pipe` node the engine starts both
stages, then awaits the left stage, then the right; the node completes only
after the whole trace. -/
def enginePipeTrace : List EngineEvent :=
  [EngineEvent.started 0, EngineEvent.started 1,
   EngineEvent.awaited 0, EngineEvent.awaited 1]

/-- Holds for a `started` event. -/
def isStartEvent : EngineEvent → Bool
  | EngineEvent.started _ => true
  | EngineEvent.awaited _ => false

/-- Holds for an `awaited` event. -/
def isAwaitEvent : EngineEvent → Bool
  | EngineEvent.started _ => false
  | EngineEvent.awaited _ => true

/-- A concrete context for closed test inputs: `HOME=/home/u`, a present
but empty `PATH`, no files. -/
def ctx0 : Ctx :=
  ⟨Option.some "/home/u", Option.some [], []⟩

/-- A concrete context with a two-directory `PATH` and one file. -/
def ctx1 : Ctx :=
  ⟨Option.some "/home/u", Option.some ["/bin", "/usr/bin"], ["/usr/bin/ls"]⟩

/-- A concrete context whose `PATH` variable is absent. -/
def ctx2 : Ctx :=
  ⟨Option.some "/home/u", Option.none, []⟩

/-- A concrete filesystem where `d1` is an existing directory. -/
def fs0 : FSModel :=
  ⟨["d1"], ["d1"]⟩

/-- A concrete filesystem: `/home/u` is a directory, `/f` an existing
regular file. -/
def fs1 : FSModel :=
  ⟨["/home/u", "/f"], ["/home/u"]⟩

/-! ## Helper lemmas -/

theorem rposition_eq_none {p : String → Bool} :
    ∀ {xs : List String}, (∀ x ∈ xs, p x = false) →
      rposition p xs = Option.none := by
  intro xs
  induction xs with
  | nil => intro _; rfl
  | cons x xs ih =>
    intro h
    have hx : p x = false := h x (List.mem_cons_self x xs)
    have hxs := ih (fun y hy => h y (List.mem_cons_of_mem x hy))
    simp [rposition, hxs, hx]

theorem rposition_append {l r : List String}
    (hr : ∀ x ∈ r, (x == "|") = false) :
    rposition (fun cp => cp == "|") (l ++ "|" :: r) =
      Option.some l.length := by
  induction l with
  | nil =>
    have hnone : rposition (fun cp => cp == "|") r = Option.none :=
      rposition_eq_none hr
    simp [rposition, hnone]
  | cons x l ih =>
    simp [rposition, ih]

theorem parse_pipe_of_no_pipe (ctx : Ctx) {ts : List String}
    (h : ∀ x ∈ ts, (x == "|") = false) :
    parse_pipe ctx ts = parse_command ctx ts := by
  rw [parse_pipe.eq_def]
  split
  · rename_i i heq
    rw [rposition_eq_none h] at heq
    cases heq
  · rfl

theorem parse_pipe_split (ctx : Ctx) {l r : List String} {lc rc : Command}
    (hr : ∀ x ∈ r, (x == "|") = false)
    (hl : parse_pipe ctx l = Except.ok (Option.some lc))
    (hc : parse_command ctx r = Except.ok (Option.some rc)) :
    parse_pipe ctx (l ++ "|" :: r) =
      Except.ok (Option.some (Command.pipe lc rc)) := by
  have happ : l ++ "|" :: r = (l ++ ["|"]) ++ r := by simp
  have hlen : (l ++ ["|"]).length = l.length + 1 := by simp
  have htake : (l ++ "|" :: r).take l.length = l := List.take_left l ("|" :: r)
  have hdrop : (l ++ "|" :: r).drop (l.length + 1) = r := by
    rw [happ, ← hlen]
    exact List.drop_left (l ++ ["|"]) r
  rw [parse_pipe.eq_def]
  split
  · rename_i i heq
    rw [rposition_append hr] at heq
    cases heq
    rw [htake, hdrop, hl, hc]
  · rename_i heq
    rw [rposition_append hr] at heq
    cases heq

theorem scanRedirects_no_ops {ts : List String}
    (h : ∀ x ∈ ts, isRedirectOp x = false) (out err : RedirectType) :
    scanRedirects out err true ts = Except.ok (out, err, ts) := by
  induction ts with
  | nil => rfl
  | cons x rest ih =>
    have hx : isRedirectOp x = false := h x (List.mem_cons_self x rest)
    have hrest := ih (fun y hy => h y (List.mem_cons_of_mem x hy))
    simp only [isRedirectOp, Bool.or_eq_false_iff] at hx
    obtain ⟨⟨⟨⟨⟨h1, h2⟩, h3⟩, h4⟩, h5⟩, h6⟩ := hx
    simp [scanRedirects, h1, h2, h3, h4, h5, h6, hrest]

theorem scanRedirects_trailing_op {op : String} (hop : isRedirectOp op = true) :
    ∀ {ts : List String} {out err : RedirectType} {kn : Bool},
      ts.getLast? = Option.some op →
      isPanic (scanRedirects out err kn ts) = true := by
  intro ts
  induction ts with
  | nil => intro out err kn h; simp at h
  | cons x rest ih =>
    intro out err kn h
    cases rest with
    | nil =>
      simp at h
      subst h
      simp only [isRedirectOp, Bool.or_eq_true] at hop
      rcases hop with ((((h1 | h2) | h3) | h4) | h5) | h6
      · simp [scanRedirects, h1, isPanic]
      · simp [scanRedirects, h2, isPanic]
      · simp [scanRedirects, h3, isPanic]
      · simp [scanRedirects, h4, isPanic]
      · simp [scanRedirects, h5, isPanic]
      · simp [scanRedirects, h6, isPanic]
    | cons y rest' =>
      have hlast : (y :: rest').getLast? = Option.some op := by
        rw [List.getLast?_cons_cons] at h; exact h
      have hrec : ∀ (o e : RedirectType) (k : Bool),
          isPanic (scanRedirects o e k (y :: rest')) = true :=
        fun o e k => ih hlast
      have herr : ∀ (o e : RedirectType) (k : Bool), ∃ s,
          scanRedirects o e k (y :: rest') = Except.error s := by
        intro o e k
        cases hv : scanRedirects o e k (y :: rest') with
        | error s => exact ⟨s, rfl⟩
        | ok v => have := hrec o e k; rw [hv] at this; simp [isPanic] at this
      rw [scanRedirects]
      by_cases c1 : (x == ">" || x == "1>") = true
      · obtain ⟨s, hs⟩ := herr (RedirectType.truncate y) err false
        simp only [c1, if_true, List.head?_cons, hs, isPanic]
      · by_cases c2 : (x == ">>" || x == "1>>") = true
        · obtain ⟨s, hs⟩ := herr (RedirectType.append y) err false
          simp only [c1, c2, if_false, if_true, Bool.false_eq_true,
            List.head?_cons, hs, isPanic]
        · by_cases c3 : (x == "2>") = true
          · obtain ⟨s, hs⟩ := herr out (RedirectType.truncate y) false
            simp only [c1, c2, c3, if_false, if_true, Bool.false_eq_true,
              List.head?_cons, hs, isPanic]
          · by_cases c4 : (x == "2>>") = true
            · obtain ⟨s, hs⟩ := herr out (RedirectType.append y) false
              simp only [c1, c2, c3, c4, if_false, if_true, Bool.false_eq_true,
                List.head?_cons, hs, isPanic]
            · obtain ⟨s, hs⟩ := herr out err true
              simp only [c1, c2, c3, c4, if_false, Bool.false_eq_true,
                hs, isPanic]

theorem scanRedirects_last_wins {ps : List String} {a b : String}
    (hps : ∀ x ∈ ps, isRedirectOp x = false)
    (ha : isRedirectOp a = false) (hb : isRedirectOp b = false) :
    ∀ out err : RedirectType,
      scanRedirects out err true (ps ++ [">", a, ">", b]) =
        Except.ok (RedirectType.truncate b, err, ps) := by
  induction ps with
  | nil =>
    intro out err
    simp only [isRedirectOp, Bool.or_eq_false_iff] at ha hb
    obtain ⟨⟨⟨⟨⟨a1, a2⟩, a3⟩, a4⟩, a5⟩, a6⟩ := ha
    obtain ⟨⟨⟨⟨⟨b1, b2⟩, b3⟩, b4⟩, b5⟩, b6⟩ := hb
    simp [scanRedirects, a1, a2, a3, a4, a5, a6, b1, b2, b3, b4, b5, b6]
  | cons x ps ih =>
    intro out err
    have hx : isRedirectOp x = false := hps x (List.mem_cons_self x ps)
    have hps' := fun y hy => hps y (List.mem_cons_of_mem x hy)
    have hrec := (ih hps') out err
    simp only [isRedirectOp, Bool.or_eq_false_iff] at hx
    obtain ⟨⟨⟨⟨⟨x1, x2⟩, x3⟩, x4⟩, x5⟩, x6⟩ := hx
    rw [List.cons_append, scanRedirects]
    simp [x1, x2, x3, x4, x5, x6, hrec]

theorem resolve_one_flat {ctx : Ctx} {cp : String} {c : Command}
    (h : resolve_one ctx cp = Except.ok c) :
    isFlat c = true ∧ noRedirect c = true := by
  unfold resolve_one at h
  split at h
  · cases h; exact ⟨rfl, rfl⟩
  · cases h; exact ⟨rfl, rfl⟩
  · cases h; exact ⟨rfl, rfl⟩
  · cases h; exact ⟨rfl, rfl⟩
  · cases h; exact ⟨rfl, rfl⟩
  · split at h
    · cases h
    · cases h
      split
      · exact ⟨rfl, rfl⟩
      · exact ⟨rfl, rfl⟩

theorem mapResolve_flat {ctx : Ctx} :
    ∀ {ts : List String} {cs : List Command},
      mapResolve ctx ts = Except.ok cs →
      isFlatList cs = true ∧ noRedirectList cs = true := by
  intro ts
  induction ts with
  | nil =>
    intro cs h
    cases h
    exact ⟨rfl, rfl⟩
  | cons cp rest ih =>
    intro cs h
    unfold mapResolve at h
    cases hr : resolve_one ctx cp with
    | error e => rw [hr] at h; cases h
    | ok c =>
      rw [hr] at h
      cases hm : mapResolve ctx rest with
      | error e => rw [hm] at h; cases h
      | ok cs' =>
        rw [hm] at h
        cases h
        obtain ⟨hc1, hc2⟩ := resolve_one_flat hr
        obtain ⟨hm1, hm2⟩ := ih hm
        constructor
        · simp [isFlatList, hc1, hm1]
        · simp [noRedirectList, hc2, hm2]

theorem parse_command_flat {ctx : Ctx} {ts : List String} {c : Command}
    (h : parse_command ctx ts = Except.ok (Option.some c)) :
    isFlat c = true ∧ noRedirect c = true := by
  cases ts with
  | nil => simp [parse_command] at h
  | cons name rest =>
    simp only [parse_command] at h
    split at h
    · cases h; exact ⟨rfl, rfl⟩
    · cases h; exact ⟨rfl, rfl⟩
    · cases hm : mapResolve ctx rest with
      | error e => rw [hm] at h; cases h
      | ok targets =>
        rw [hm] at h
        cases h
        obtain ⟨hm1, hm2⟩ := mapResolve_flat hm
        exact ⟨hm1, hm2⟩
    · cases h; exact ⟨rfl, rfl⟩
    · cases h; exact ⟨rfl, rfl⟩
    · split at h
      · cases h
      · cases h
        split
        · exact ⟨rfl, rfl⟩
        · exact ⟨rfl, rfl⟩

theorem parse_pipe_noRedirect {ctx : Ctx} :
    ∀ (n : Nat) (ts : List String) (c : Command), ts.length ≤ n →
      parse_pipe ctx ts = Except.ok (Option.some c) → noRedirect c = true := by
  intro n
  induction n with
  | zero =>
    intro ts c hlen h
    have hts : ts = [] := List.eq_nil_of_length_eq_zero (Nat.le_zero.mp hlen)
    subst hts
    rw [parse_pipe.eq_def] at h
    simp [rposition, parse_command] at h
  | succ n ih =>
    intro ts c hlen h
    rw [parse_pipe.eq_def] at h
    split at h
    · rename_i i heq
      have hi : i < ts.length := rposition_lt_length heq
      split at h
      · cases h
      · cases h
      · rename_i lc hlc
        split at h
        · cases h
        · cases h
        · rename_i rc hrc
          cases h
          have hlc' : noRedirect lc = true := by
            refine ih (ts.take i) lc ?_ hlc
            simp only [List.length_take]
            omega
          have hrc' : noRedirect rc = true := (parse_command_flat hrc).2
          simp [noRedirect, hlc', hrc']
    · exact (parse_command_flat h).2

theorem noRedirect_redirectOnlyAtRoot {c : Command}
    (h : noRedirect c = true) : redirectOnlyAtRoot c = true := by
  cases c with
  | redirect o e inner => simp [noRedirect] at h
  | exit => exact h
  | echo args => exact h
  | type cs => exact h
  | pwd => exact h
  | cd args => exact h
  | executable p args => exact h
  | invalidCommand n => exact h
  | pipe l r => exact h

theorem parse_redirect_root {ctx : Ctx} {ts : List String} {c : Command}
    (h : parse_redirect ctx ts = Except.ok (Option.some c)) :
    redirectOnlyAtRoot c = true := by
  unfold parse_redirect at h
  split at h
  · cases h
  · rename_i out_path err_path kept hscan
    split at h
    · cases h
    · rename_i command hpipe
      split at h
      · split at h
        · cases h
        · rename_i inner
          cases h
          have : noRedirect inner = true :=
            parse_pipe_noRedirect kept.length kept inner (Nat.le_refl _) hpipe
          simp [redirectOnlyAtRoot, this]
      · cases h
        exact noRedirect_redirectOnlyAtRoot
          (parse_pipe_noRedirect kept.length kept c (Nat.le_refl _) hpipe)

theorem pathSearch_eq_find (files : List String) (name : String) :
    ∀ dirs : List String,
      pathSearch files dirs name =
        (dirs.find? (fun d => files.contains (joinPath d name))).map
          (fun d => joinPath d name) := by
  intro dirs
  induction dirs with
  | nil => rfl
  | cons d rest ih =>
    by_cases hd : joinPath d name ∈ files
    · simp [pathSearch, List.find?, hd]
    · simp [pathSearch, List.find?, hd, ih]

/-! ## Claims -/

/-- C1 counterexample: tokenizing `echo 'a b' "c\"d" \~x` with
`HOME=/home/u` does not produce the token `/home/ux`: the unquoted
backslash escapes the `~`, which is therefore appended literally. -/
theorem c1_counterexample :
    ¬ (transform_input (Option.some "/home/u") "echo 'a b' \"c\\\"d\" \\~x" =
        Except.ok ["echo", "a b", "c\"d", "/home/ux"]) := by
  intro h
  have hx : transform_input (Option.some "/home/u") "echo 'a b' \"c\\\"d\" \\~x" =
      Except.ok ["echo", "a b", "c\"d", "~x"] := rfl
  rw [hx] at h
  simp at h

/-- C1 (amended): tokenizing the line `echo 'a b' "c\"d" \~x` with
`HOME=/home/u` yields exactly the four tokens
`["echo", "a b", "c\"d", "~x"]`: single quotes suppress all escaping, a
backslash inside double quotes escapes only `"` and `\` (otherwise the
backslash is retained), an unquoted backslash appends the next character
literally — so an escaped `~` stays a literal `~` and is not expanded —
and an unescaped unquoted `~` is replaced by the value of HOME even
mid-token (second conjunct). -/
theorem c1_tokenization :
    transform_input (Option.some "/home/u") "echo 'a b' \"c\\\"d\" \\~x" =
      Except.ok ["echo", "a b", "c\"d", "~x"] ∧
    tokenize "/home/u" "echo x~y" = ["echo", "x/home/uy"] :=
  ⟨rfl, rfl⟩

/-- C2 counterexample: `cd d1 d2` — two arguments, so more than one — with
`d1` an existing directory neither reports a one-line error with the
working directory unchanged, nor is skipped: it succeeds and changes the
working directory to `d1`. -/
theorem c2_counterexample :
    1 < (["d1", "d2"] : List String).length ∧
    ¬ (∃ msg, cdRun (Option.some "/home/u") ["d1", "d2"] fs0 "/start" =
        Except.ok ([msg], "/start")) := by
  refine ⟨by decide, ?_⟩
  rintro ⟨msg, h⟩
  have hx : cdRun (Option.some "/home/u") ["d1", "d2"] fs0 "/start" =
      Except.ok ([], "d1") := rfl
  rw [hx] at h
  simp at h

/-- C2 (amended): for every invocation of the cd builtin with more than
two arguments, cd reports the one-line error `cd: too many arguments` on
stderr and the operation is skipped (working directory unchanged); with
exactly two arguments the second argument is ignored and cd behaves as if
invoked with the first alone. -/
theorem c2_too_many_args (home : Option String) (fs : FSModel) (cwd : String) :
    (∀ args : List String, 2 < args.length →
      cdRun home args fs cwd = Except.ok (["cd: too many arguments"], cwd)) ∧
    (∀ p q : String, cdRun home [p, q] fs cwd = cdRun home [p] fs cwd) := by
  constructor
  · intro args h
    unfold cdRun
    rw [if_pos h]
  · intro p q
    rfl

/-- C2 witness: `cd a b c` (three arguments) reports the error and leaves
the working directory unchanged. -/
theorem c2_witness :
    2 < (["a", "b", "c"] : List String).length ∧
    cdRun (Option.some "/home/u") ["a", "b", "c"] fs0 "/start" =
      Except.ok (["cd: too many arguments"], "/start") :=
  ⟨by decide,
    (c2_too_many_args (Option.some "/home/u") fs0 "/start").1
      ["a", "b", "c"] (by decide)⟩

/-- C3: `cd` with no arguments sets the working directory to the value of
HOME (when HOME names an existing directory); `cd p` for a nonexistent `p`
writes the one-line `No such file or directory` message and leaves the
working directory unchanged; `cd p` for an existing non-directory `p`
writes the one-line `Not a directory` message and leaves the working
directory unchanged. -/
theorem c3_cd_behaviour (home : String) (fs : FSModel) (cwd : String) :
    (fs.exists_paths.contains home = true → fs.dir_paths.contains home = true →
      cdRun (Option.some home) [] fs cwd = Except.ok ([], home)) ∧
    (∀ p, fs.exists_paths.contains p = false →
      cdRun (Option.some home) [p] fs cwd =
        Except.ok (["cd: " ++ p ++ ": No such file or directory"], cwd)) ∧
    (∀ p, fs.exists_paths.contains p = true → fs.dir_paths.contains p = false →
      cdRun (Option.some home) [p] fs cwd =
        Except.ok (["cd: " ++ p ++ ": Not a directory"], cwd)) := by
  refine ⟨?_, ?_, ?_⟩
  · intro h1 h2
    have h1' : home ∈ fs.exists_paths := by simpa using h1
    have h2' : home ∈ fs.dir_paths := by simpa using h2
    unfold cdRun cdTarget
    simp [h1', h2']
  · intro p h1
    have h1' : p ∉ fs.exists_paths := by simpa using h1
    unfold cdRun cdTarget
    simp [h1']
  · intro p h1 h2
    have h1' : p ∈ fs.exists_paths := by simpa using h1
    have h2' : p ∉ fs.dir_paths := by simpa using h2
    unfold cdRun cdTarget
    simp [h1', h2']

/-- C3 witness: with `/home/u` an existing directory, `/nope` absent and
`/f` an existing regular file, the three behaviours at concrete inputs. -/
theorem c3_witness :
    cdRun (Option.some "/home/u") [] fs1 "/start" =
      Except.ok ([], "/home/u") ∧
    cdRun (Option.some "/home/u") ["/nope"] fs1 "/start" =
      Except.ok (["cd: /nope: No such file or directory"], "/start") ∧
    cdRun (Option.some "/home/u") ["/f"] fs1 "/start" =
      Except.ok (["cd: /f: Not a directory"], "/start") :=
  ⟨(c3_cd_behaviour "/home/u" fs1 "/start").1 (by decide) (by decide),
   (c3_cd_behaviour "/home/u" fs1 "/start").2.1 "/nope" (by decide),
   (c3_cd_behaviour "/home/u" fs1 "/start").2.2 "/f" (by decide) (by decide)⟩

/-- C4: the pipe splitter splits at the rightmost `|` (left slice parsed
recursively, right slice resolved as exactly one stage); a sequence with
no `|` is delegated directly to the command resolver; and
`a | b | c` parses to the left-deep tree `Pipe(Pipe(a,b), c)`. -/
theorem c4_pipe_splitting (ctx : Ctx) (l r : List String) (lc rc : Command) :
    ((∀ x ∈ r, (x == "|") = false) →
      parse_pipe ctx l = Except.ok (Option.some lc) →
      parse_command ctx r = Except.ok (Option.some rc) →
      parse_pipe ctx (l ++ "|" :: r) =
        Except.ok (Option.some (Command.pipe lc rc))) ∧
    (∀ ts : List String, (∀ x ∈ ts, (x == "|") = false) →
      parse_pipe ctx ts = parse_command ctx ts) ∧
    parse_pipe ctx0 ["a", "|", "b", "|", "c"] =
      Except.ok (Option.some (Command.pipe
        (Command.pipe (Command.invalidCommand "a") (Command.invalidCommand "b"))
        (Command.invalidCommand "c"))) := by
  refine ⟨fun hr hl hc => parse_pipe_split ctx hr hl hc,
    fun ts h => parse_pipe_of_no_pipe ctx h, ?_⟩
  have h1 : parse_pipe ctx0 ["a"] =
      Except.ok (Option.some (Command.invalidCommand "a")) :=
    (parse_pipe_of_no_pipe ctx0 (by decide)).trans rfl
  have h2 : parse_pipe ctx0 (["a"] ++ "|" :: ["b"]) =
      Except.ok (Option.some
        (Command.pipe (Command.invalidCommand "a") (Command.invalidCommand "b"))) :=
    parse_pipe_split ctx0 (by decide) h1 rfl
  show parse_pipe ctx0 (["a", "|", "b"] ++ "|" :: ["c"]) =
    Except.ok (Option.some (Command.pipe
      (Command.pipe (Command.invalidCommand "a") (Command.invalidCommand "b"))
      (Command.invalidCommand "c")))
  exact parse_pipe_split ctx0 (by decide) h2 rfl

/-- C4 witness: `echo x | echo y` splits at the `|` into the two echo
stages. -/
theorem c4_witness :
    parse_pipe ctx0 (["echo", "x"] ++ "|" :: ["echo", "y"]) =
      Except.ok (Option.some
        (Command.pipe (Command.echo ["x"]) (Command.echo ["y"]))) :=
  (c4_pipe_splitting ctx0 ["echo", "x"] ["echo", "y"]
      (Command.echo ["x"]) (Command.echo ["y"])).1
    (by decide)
    ((parse_pipe_of_no_pipe ctx0 (by decide)).trans rfl)
    rfl

/-- C5: when redirection operators of the same stream occur more than once
the last occurrence wins, and each operator together with its target is
removed from the sequence handed to the pipe splitter (first conjunct, for
an arbitrary operator-free prefix); concretely, `cmd > a.txt > b.txt`
parses with out-spec `Truncate("b.txt")` (second conjunct). -/
theorem c5_last_redirect_wins (ps : List String) (a b : String) :
    ((∀ x ∈ ps, isRedirectOp x = false) → isRedirectOp a = false →
      isRedirectOp b = false → ∀ out err : RedirectType,
      scanRedirects out err true (ps ++ [">", a, ">", b]) =
        Except.ok (RedirectType.truncate b, err, ps)) ∧
    parse_input ctx0 "cmd > a.txt > b.txt" =
      Except.ok (Option.some (Command.redirect (RedirectType.truncate "b.txt")
        RedirectType.none (Command.invalidCommand "cmd"))) := by
  refine ⟨fun hps ha hb => scanRedirects_last_wins hps ha hb, ?_⟩
  have ht : transform_input ctx0.home "cmd > a.txt > b.txt" =
      Except.ok ["cmd", ">", "a.txt", ">", "b.txt"] := rfl
  have hs : scanRedirects RedirectType.none RedirectType.none true
      ["cmd", ">", "a.txt", ">", "b.txt"] =
      Except.ok (RedirectType.truncate "b.txt", RedirectType.none, ["cmd"]) := rfl
  have hp : parse_pipe ctx0 ["cmd"] =
      Except.ok (Option.some (Command.invalidCommand "cmd")) :=
    (parse_pipe_of_no_pipe ctx0 (by decide)).trans rfl
  simp [parse_input, ht, parse_redirect, hs, hp, RedirectType.is_some]

/-- C5 witness: the general last-wins conjunct at the concrete sequence
`cmd > a.txt > b.txt`. -/
theorem c5_witness :
    scanRedirects RedirectType.none RedirectType.none true
        (["cmd"] ++ [">", "a.txt", ">", "b.txt"]) =
      Except.ok (RedirectType.truncate "b.txt", RedirectType.none, ["cmd"]) :=
  (c5_last_redirect_wins ["cmd"] "a.txt" "b.txt").1
    (by decide) (by decide) (by decide) RedirectType.none RedirectType.none

/-- C6: a `Redirect` node only ever occurs at the root of the parsed tree
(first conjunct), and when the token sequence of an input contains no `|`
and no redirection operator the resulting tree contains no `Pipe` and no
`Redirect` node (second conjunct). -/
theorem c6_redirect_at_root (ctx : Ctx) (input : String) :
    (∀ c, parse_input ctx input = Except.ok (Option.some c) →
      redirectOnlyAtRoot c = true) ∧
    (∀ ts c, transform_input ctx.home input = Except.ok ts →
      (∀ x ∈ ts, (x == "|") = false ∧ isRedirectOp x = false) →
      parse_input ctx input = Except.ok (Option.some c) →
      isFlat c = true) := by
  constructor
  · intro c h
    unfold parse_input at h
    split at h
    · cases h
    · exact parse_redirect_root h
  · intro ts c ht hops h
    have hscan := scanRedirects_no_ops (fun x hx => (hops x hx).2)
      RedirectType.none RedirectType.none
    have hpp := parse_pipe_of_no_pipe ctx (fun x hx => (hops x hx).1)
    simp only [parse_input, ht, parse_redirect, hscan, hpp,
      RedirectType.is_some, Bool.or_self, Bool.false_eq_true, if_false] at h
    cases hpc : parse_command ctx ts with
    | error e => rw [hpc] at h; cases h
    | ok cmd =>
      rw [hpc] at h
      cases h
      exact (parse_command_flat hpc).1

/-- C6 witness: `echo hi` (no pipe, no redirect tokens) parses to a tree
with no `Pipe` and no `Redirect` node. -/
theorem c6_witness :
    parse_input ctx0 "echo hi" =
      Except.ok (Option.some (Command.echo ["hi"])) ∧
    isFlat (Command.echo ["hi"]) = true := by
  have ht : transform_input ctx0.home "echo hi" =
      Except.ok ["echo", "hi"] := rfl
  have hs : scanRedirects RedirectType.none RedirectType.none true
      ["echo", "hi"] =
      Except.ok (RedirectType.none, RedirectType.none, ["echo", "hi"]) := rfl
  have hp : parse_pipe ctx0 ["echo", "hi"] =
      Except.ok (Option.some (Command.echo ["hi"])) :=
    (parse_pipe_of_no_pipe ctx0 (by decide)).trans rfl
  have hin : parse_input ctx0 "echo hi" =
      Except.ok (Option.some (Command.echo ["hi"])) := by
    simp [parse_input, ht, parse_redirect, hs, hp, RedirectType.is_some]
  exact ⟨hin, (c6_redirect_at_root ctx0 "echo hi").2 ["echo", "hi"]
    (Command.echo ["hi"]) ht (by decide) hin⟩

/-- C7: a stage whose first token is none of the builtin names resolves by
searching each `PATH` directory in order for a file named exactly like the
first token; the first match yields `Executable(fullPath, remainingTokens)`
and no match yields `InvalidCommand(firstToken)`. -/
theorem c7_path_resolution (ctx : Ctx) (dirs : List String) (name : String)
    (args : List String) (hname : builtinNames.contains name = false)
    (hdirs : ctx.pathDirs = Option.some dirs) :
    parse_command ctx (name :: args) =
      Except.ok (Option.some
        (match dirs.find? (fun d => ctx.files.contains (joinPath d name)) with
          | Option.some d => Command.executable (joinPath d name) args
          | Option.none => Command.invalidCommand name)) := by
  simp only [parse_command]
  split
  · simp [builtinNames] at hname
  · simp [builtinNames] at hname
  · simp [builtinNames] at hname
  · simp [builtinNames] at hname
  · simp [builtinNames] at hname
  · simp only [hdirs]
    rw [pathSearch_eq_find ctx.files name dirs]
    cases hf : dirs.find? (fun d => ctx.files.contains (joinPath d name)) with
    | some d => simp [hf]
    | none => simp [hf]

/-- C7 witness: with `PATH=/bin:/usr/bin` and `/usr/bin/ls` the only file,
`ls -l` resolves to `Executable("/usr/bin/ls", ["-l"])`; a name present in
no directory resolves to `InvalidCommand`. -/
theorem c7_witness :
    parse_command ctx1 ["ls", "-l"] =
      Except.ok (Option.some (Command.executable "/usr/bin/ls" ["-l"])) ∧
    parse_command ctx1 ["nosuchcmd"] =
      Except.ok (Option.some (Command.invalidCommand "nosuchcmd")) :=
  ⟨(c7_path_resolution ctx1 ["/bin", "/usr/bin"] "ls" ["-l"]
      (by decide) rfl).trans (by rfl),
   (c7_path_resolution ctx1 ["/bin", "/usr/bin"] "nosuchcmd" []
      (by decide) rfl).trans (by rfl)⟩

/-- C8: a redirection operator that is the last token of the line, absence
of `HOME`, and absence of `PATH` during resolution of a non-builtin name
each end in a panic (modelled as `Except.error`) rather than a recoverable
per-line error. -/
theorem c8_fatal_conditions :
    (∀ (ctx : Ctx) (parts : List String) (op : String),
      parts.getLast? = Option.some op → isRedirectOp op = true →
      isPanic (parse_redirect ctx parts) = true) ∧
    (∀ input : String, isPanic (transform_input Option.none input) = true) ∧
    (∀ (ctx : Ctx) (name : String) (args : List String),
      ctx.pathDirs = Option.none → builtinNames.contains name = false →
      isPanic (parse_command ctx (name :: args)) = true) := by
  refine ⟨?_, fun _ => rfl, ?_⟩
  · intro ctx parts op hlast hop
    have hscan : isPanic
        (scanRedirects RedirectType.none RedirectType.none true parts) = true :=
      scanRedirects_trailing_op hop hlast
    unfold parse_redirect
    cases hv : scanRedirects RedirectType.none RedirectType.none true parts with
    | error s => simp [isPanic]
    | ok v => rw [hv] at hscan; simp [isPanic] at hscan
  · intro ctx name args hpath hname
    simp only [parse_command]
    split
    · simp [builtinNames] at hname
    · simp [builtinNames] at hname
    · simp [builtinNames] at hname
    · simp [builtinNames] at hname
    · simp [builtinNames] at hname
    · simp only [hpath]
      rfl

/-- C8 witness: `cmd >` (trailing operator), any line with `HOME` absent,
and a non-builtin name with `PATH` absent all panic. -/
theorem c8_witness :
    isPanic (parse_redirect ctx0 ["cmd", ">"]) = true ∧
    isPanic (transform_input Option.none "echo hi") = true ∧
    isPanic (parse_command ctx2 ["somecmd"]) = true :=
  ⟨c8_fatal_conditions.1 ctx0 ["cmd", ">"] ">" (by decide) (by decide),
   c8_fatal_conditions.2.1 "echo hi",
   c8_fatal_conditions.2.2 ctx2 "somecmd" [] rfl (by decide)⟩

/-- C9: in the engine's trace for one `Pipe` node, every start event
precedes every await event — both stages are started before the engine
blocks waiting on either — and the engine awaits both stages (the node
completes only after both awaits). -/
theorem c9_pipe_ordering :
    (∀ i j : Fin enginePipeTrace.length,
      isStartEvent (enginePipeTrace.get i) = true →
      isAwaitEvent (enginePipeTrace.get j) = true → (i : Nat) < (j : Nat)) ∧
    EngineEvent.awaited 0 ∈ enginePipeTrace ∧
    EngineEvent.awaited 1 ∈ enginePipeTrace := by
  refine ⟨?_, by decide, by decide⟩
  decide

/-- C9 witness: the left stage's start (index 0) precedes the left stage's
await (index 2). -/
theorem c9_witness :
    isStartEvent (enginePipeTrace.get ⟨0, by decide⟩) = true ∧
    isAwaitEvent (enginePipeTrace.get ⟨2, by decide⟩) = true ∧ (0 : Nat) < 2 :=
  ⟨rfl, rfl, c9_pipe_ordering.1 ⟨0, by decide⟩ ⟨2, by decide⟩ rfl rfl⟩

/-- C10: a `|` with no tokens on one side of it panics: parsing `a |`
and `| b` both hit the `unwrap` of the `None` returned for the empty
slice, instead of producing a command or no command. -/
theorem c10_dangling_pipe :
    parse_input ctx0 "a |" = Except.error "unwrap on None" ∧
    parse_input ctx0 "| b" = Except.error "unwrap on None" := by
  constructor
  · have ht : transform_input ctx0.home "a |" = Except.ok ["a", "|"] := rfl
    have hs : scanRedirects RedirectType.none RedirectType.none true ["a", "|"] =
        Except.ok (RedirectType.none, RedirectType.none, ["a", "|"]) := rfl
    have hp : parse_pipe ctx0 ["a", "|"] = Except.error "unwrap on None" := by
      have h1 : parse_pipe ctx0 ["a"] =
          Except.ok (Option.some (Command.invalidCommand "a")) :=
        (parse_pipe_of_no_pipe ctx0 (by decide)).trans rfl
      rw [parse_pipe.eq_def]
      split
      · rename_i i heq
        rw [show rposition (fun cp => cp == "|") ["a", "|"] = Option.some 1
          from rfl] at heq
        cases heq
        rw [show (["a", "|"] : List String).take 1 = ["a"] from rfl, h1]
        rfl
      · rename_i heq
        rw [show rposition (fun cp => cp == "|") ["a", "|"] = Option.some 1
          from rfl] at heq
        cases heq
    simp [parse_input, ht, parse_redirect, hs, hp]
  · have ht : transform_input ctx0.home "| b" = Except.ok ["|", "b"] := rfl
    have hs : scanRedirects RedirectType.none RedirectType.none true ["|", "b"] =
        Except.ok (RedirectType.none, RedirectType.none, ["|", "b"]) := rfl
    have hp : parse_pipe ctx0 ["|", "b"] = Except.error "unwrap on None" := by
      have h0 : parse_pipe ctx0 [] = Except.ok Option.none :=
        (parse_pipe_of_no_pipe ctx0 (by decide)).trans rfl
      rw [parse_pipe.eq_def]
      split
      · rename_i i heq
        rw [show rposition (fun cp => cp == "|") ["|", "b"] = Option.some 0
          from rfl] at heq
        cases heq
        rw [show (["|", "b"] : List String).take 0 = [] from rfl, h0]
      · rename_i heq
        rw [show rposition (fun cp => cp == "|") ["|", "b"] = Option.some 0
          from rfl] at heq
        cases heq
    simp [parse_input, ht, parse_redirect, hs, hp]

end Shell
